import Mathlib

/-!
Verification development for the lead-scoring engine (`scoring.py`).

The engine is embedded shallowly: each Python scoring method of
`ImprovedLeadScorer` becomes a Lean function over an explicit record type,
with `ℚ` standing for Python numbers (the arithmetic of the scorer is exact
decimal/ratio arithmetic, so `ℚ` models it without float error; `np.std < c`
comparisons are modelled by the equivalent population-variance comparison
`var < c^2` to stay inside `ℚ`).  Missing, NaN, or unparsable field values —
which the source uniformly recovers from by treating the field as absent —
are modelled as `none`.
-/

/-- Character-list analogue of Python `needle in haystack` (substring test). -/
def charsInfixOf : List Char → List Char → Bool
  | _, [] => false
  | needle, c :: cs => charsPrefixOf needle (c :: cs) || charsInfixOf needle cs
where
  charsPrefixOf : List Char → List Char → Bool
  | [], _ => true
  | _ :: _, [] => false
  | a :: as, b :: bs => a == b && charsPrefixOf as bs

/-- `strContains s t` models Python `t in s` for strings, with the convention
that the empty needle matches (as in Python). -/
def strContains (s t : String) : Bool :=
  t.data.isEmpty || charsInfixOf t.data s.data

/-- Models Python `s.startswith(t)`. -/
def strStartsWith (s t : String) : Bool :=
  charsInfixOf.charsPrefixOf t.data s.data

/-- Models Python `s.lower()` (ASCII case mapping suffices for this system). -/
def toLowerStr (s : String) : String := ⟨s.data.map Char.toLower⟩

/-- Models Python `s.strip()`. -/
def trimStr (s : String) : String :=
  ⟨((s.data.dropWhile Char.isWhitespace).reverse.dropWhile Char.isWhitespace).reverse⟩

/-- Helper for `titleStr`: the Bool records whether the previous character was
alphabetic (Python title-cases the first letter of each alphabetic run). -/
def titleChars : Bool → List Char → List Char
  | _, [] => []
  | prevAlpha, c :: cs =>
    (if c.isAlpha then (if prevAlpha then c.toLower else c.toUpper) else c) ::
      titleChars c.isAlpha cs

/-- Models Python `s.title()`. -/
def titleStr (s : String) : String := ⟨titleChars false s.data⟩

/-- Split a character list at every separator chosen by `p`, keeping empty
pieces (as Python `str.split(sep)` does). -/
def splitWhenAux (p : Char → Bool) (acc : List Char) : List Char → List (List Char)
  | [] => [acc.reverse]
  | c :: cs => if p c then acc.reverse :: splitWhenAux p [] cs else splitWhenAux p (c :: acc) cs

/-- Models Python `s.split()` (split on whitespace, dropping empty pieces). -/
def wordsOf (s : String) : List String :=
  ((splitWhenAux Char.isWhitespace [] s.data).filter (fun w => !w.isEmpty)).map String.mk

/-- Models Python `s.split('.')` (empty pieces kept). -/
def splitDot (s : String) : List String :=
  (splitWhenAux (fun c => c == '.') [] s.data).map String.mk

/-- Models Python `s.replace(' ', '')`. -/
def removeSpaces (s : String) : String := ⟨s.data.filter (fun c => !(c == ' '))⟩

/-- Models Python `s.isalnum()` (true only on nonempty all-alphanumeric text). -/
def isAlnumNonempty (s : String) : Bool := !s.data.isEmpty && s.data.all Char.isAlphanum

/-- A lead record.  Every field of the input table that the scorer reads.
`none` models a missing, NaN, or unparsable value (the source treats all
three alike in every numeric branch, via `pd.notna` checks and
`try/except`-guarded conversions). -/
structure LeadRecord where
  Company : Option String := none
  Industry : Option String := none
  Website : Option String := none
  EmployeeCount : Option Int := none
  Revenue : Option ℚ := none
  Growth : Option ℚ := none
  Profit : Option ℚ := none
  Founded : Option Int := none
  Location : Option String := none
deriving DecidableEq

/-- A record whose only populated field is `Company`. -/
def onlyCompany (c : String) : LeadRecord := { Company := some c }

/-- `self.target_industries` (scoring.py lines 33–50), in declaration order. -/
def target_industries : List (String × ℚ) :=
  [("SaaS", 95), ("Software", 92), ("Technology", 90),
   ("Fintech", 88), ("Healthcare Technology", 87), ("E-commerce", 85),
   ("Healthcare", 82), ("Medical Devices", 80), ("Biotechnology", 78),
   ("Professional Services", 75), ("Business Services", 73),
   ("Manufacturing", 70), ("Industrial", 72),
   ("Education", 65), ("EdTech", 68), ("Real Estate", 60),
   ("Financial Services", 63), ("Insurance", 58), ("Retail", 55),
   ("Construction", 50), ("Agriculture", 45), ("Transportation", 48),
   ("Energy", 52), ("Utilities", 40), ("Government", 35)]

/-- `self.employee_scoring` (scoring.py lines 52–63), in declaration order. -/
def employee_scoring : List ((Int × Int) × ℚ) :=
  [((100, 300), 95), ((50, 100), 90), ((300, 500), 85), ((25, 50), 80),
   ((500, 1000), 75), ((15, 25), 70), ((1000, 2000), 60), ((5, 15), 50),
   ((2000, 5000), 40), ((0, 5), 30)]

/-- `self.tech_keywords` (scoring.py line 65). -/
def tech_keywords : List String :=
  ["tech", "soft", "data", "cloud", "ai", "digital", "app", "platform"]

/-- Leadership terms of `_score_market_position_enhanced` (scoring.py line 315). -/
def leadership_terms : List String :=
  ["leader", "leading", "premier", "top", "best", "first", "#1", "market leader"]

/-- Innovation terms of `_score_market_position_enhanced` (scoring.py line 319). -/
def innovation_terms : List String :=
  ["ai", "tech", "digital", "cloud", "data", "analytics", "automation", "platform", "saas"]

/-- `_score_company_size_enhanced` on the parsed `EmployeeCount` field
(scoring.py lines 128–152).  A missing/unparsable count parses to 0. -/
def score_company_size_field (employee_count : Option Int) : ℚ :=
  let emp_count := employee_count.getD 0
  if emp_count = 0 then 25
  else
    match employee_scoring.find? (fun p => decide (p.1.1 ≤ emp_count) && decide (emp_count < p.1.2)) with
    | some p =>
      let range_position : ℚ := ((emp_count - p.1.1 : Int) : ℚ) / ((p.1.2 - p.1.1 : Int) : ℚ)
      if range_position > 7/10 then min (p.2 + 3) 100
      else if range_position < 3/10 then max (p.2 - 3) 0
      else p.2
    | none => if emp_count ≥ 5000 then 25 else 35

def score_company_size_enhanced (r : LeadRecord) : ℚ :=
  score_company_size_field r.EmployeeCount

/-- One iteration of the fuzzy-match loop of `_score_industry_enhanced`
(scoring.py lines 170–185): the accumulator carries
(best_match_score, best_match_weight). -/
def fuzzyStep (industry_lower : String) (acc : ℚ × Nat) (p : String × ℚ) : ℚ × Nat :=
  let target_lower := toLowerStr p.1
  let acc :=
    if (strContains industry_lower target_lower || strContains target_lower industry_lower)
        && decide (acc.2 < target_lower.data.length)
    then (p.2 * (9/10), target_lower.data.length) else acc
  let target_words := wordsOf target_lower
  let industry_words := wordsOf industry_lower
  let common_words := target_words.eraseDups.filter (fun w => industry_words.contains w)
  if !common_words.isEmpty
      && decide (((common_words.length : ℚ) / (target_words.length : ℚ)) > 1/2)
      && decide (p.2 * (8/10) > acc.1)
  then (p.2 * (8/10), acc.2) else acc

/-- `_score_industry_enhanced` on the `Industry` field (scoring.py
lines 154–195).  `none` and the empty string both take the
`not industry or pd.isna(industry)` early return. -/
def score_industry_field (o : Option String) : ℚ :=
  match o with
  | none => 40
  | some industry =>
    if industry == "" then 40
    else
      let industry_clean := titleStr (trimStr industry)
      let industry_lower := toLowerStr industry_clean
      let base_score :=
        match target_industries.find? (fun p => p.1 == industry_clean) with
        | some p => p.2
        | none => (target_industries.foldl (fuzzyStep industry_lower) (45, 0)).1
      let base_score :=
        if ["tech", "software", "digital", "ai", "data"].any (fun k => strContains industry_lower k)
        then min (base_score + 5) 100 else base_score
      let base_score :=
        if ["service", "consulting", "solution"].any (fun k => strContains industry_lower k)
        then min (base_score + 3) 100 else base_score
      base_score

def score_industry_enhanced (r : LeadRecord) : ℚ :=
  score_industry_field r.Industry

/-- `_score_website_enhanced` on the `Website` field (scoring.py
lines 197–248).  The happy path is modelled; the `except` path (score 25)
cannot fire in the model since the parse below is total, and both paths end
in the same clamp. -/
def score_website_field (o : Option String) : ℚ :=
  match o with
  | none => 20
  | some website =>
    if website == "" then 20
    else
      let website_str := toLowerStr (trimStr website)
      let website_str :=
        if strStartsWith website_str "http://" || strStartsWith website_str "https://"
        then website_str else "https://" ++ website_str
      -- urlparse(...).netloc: the text between the scheme separator and the
      -- next '/', '?' or '#'
      let after_scheme : List Char :=
        if strStartsWith website_str "https://" then website_str.data.drop 8
        else website_str.data.drop 7
      let domain : String := ⟨after_scheme.takeWhile (fun c => !(c == '/' || c == '?' || c == '#'))⟩
      let domain_parts := splitDot domain
      let score : ℚ := 40
      let score :=
        if 2 ≤ domain_parts.length then
          let domain_name := domain_parts.getD 0 ""
          let domain_ext := "." ++ domain_parts.getLastD ""
          let score := score +
            (if domain_ext == ".com" then 20
             else if domain_ext == ".io" || domain_ext == ".ai" || domain_ext == ".tech" || domain_ext == ".co" then 25
             else if domain_ext == ".net" || domain_ext == ".org" then 10
             else 5)
          let score := score +
            (if 4 ≤ domain_name.data.length ∧ domain_name.data.length ≤ 12 then 15
             else if 3 ≤ domain_name.data.length ∧ domain_name.data.length ≤ 15 then 10
             else 0)
          let tech_score : ℚ := 5 * (tech_keywords.countP (fun k => strContains domain_name k) : Nat)
          let score := score + min tech_score 15
          let score := score - (if domain_name.data.any Char.isDigit then 5 else 0)
          let score := score - (if domain_name.data.contains '-' then 3 else 0)
          let score := score +
            (if domain_name.data.all Char.isAlpha ∧ 5 ≤ domain_name.data.length then 5 else 0)
          score
        else score
      max (min score 100) 0

def score_website_enhanced (r : LeadRecord) : ℚ :=
  score_website_field r.Website

/-- `_score_financial_enhanced` (scoring.py lines 250–306). -/
def score_financial_enhanced (r : LeadRecord) : ℚ :=
  let score : ℚ := 45
  let score :=
    match r.Revenue with
    | none => score
    | some revenue =>
      if revenue ≥ 100000000 then 95
      else if revenue ≥ 50000000 then 90
      else if revenue ≥ 25000000 then 85
      else if revenue ≥ 10000000 then 80
      else if revenue ≥ 5000000 then 75
      else if revenue ≥ 1000000 then 70
      else if revenue ≥ 500000 then 60
      else 50
  let score :=
    match r.Growth with
    | none => score
    | some growth =>
      if growth ≥ 100 then score + 25
      else if growth ≥ 50 then score + 20
      else if growth ≥ 25 then score + 15
      else if growth ≥ 10 then score + 10
      else if growth ≥ 0 then score + 5
      else if growth ≥ -10 then score - 5
      else score - 15
  let score :=
    match r.Profit with
    | none => score
    | some profit => if profit > 0 then score + 10 else score - 5
  max (min score 100) 0

/-- `_score_market_position_enhanced` on the `Company` and `Industry` fields
(scoring.py lines 308–331).  `str(row.get(..., ''))` makes a missing field the
empty string. -/
def score_market_position_field (company industry : Option String) : ℚ :=
  let company_name := toLowerStr (company.getD "")
  let industry_text := toLowerStr (industry.getD "")
  let score : ℚ := 45
  let leadership_score : ℚ := 8 * (leadership_terms.countP (fun t => strContains company_name t) : Nat)
  let score := score + min leadership_score 20
  let innovation_score : ℚ := 4 * (innovation_terms.countP (fun t => strContains company_name t) : Nat)
  let score := score + min innovation_score 16
  let score :=
    if ["software", "tech", "saas"].any (fun t => strContains industry_text t) then score + 12
    else if ["healthcare", "medical", "fintech"].any (fun t => strContains industry_text t) then score + 8
    else score
  let score :=
    if (wordsOf company_name).length ≤ 3 ∧ isAlnumNonempty (removeSpaces company_name) = true
    then score + 5 else score
  max (min score 100) 0

def score_market_position_enhanced (r : LeadRecord) : ℚ :=
  score_market_position_field r.Company r.Industry

/-- String-field presence test of `_score_data_completeness`:
`field in row and pd.notna(row[field]) and row[field] != ''`. -/
def presentStr (o : Option String) : Bool :=
  match o with
  | none => false
  | some s => !(s == "")

/-- `_score_data_completeness` (scoring.py lines 333–341).  For numeric
fields, presence of a parsed value models the source's presence test. -/
def score_data_completeness (r : LeadRecord) : ℚ :=
  let required_score : ℚ :=
    (if presentStr r.Company then 20 else 0) + (if presentStr r.Industry then 20 else 0) +
    (if presentStr r.Website then 20 else 0) + (if r.EmployeeCount.isSome then 20 else 0)
  let optional_score : ℚ :=
    (if r.Revenue.isSome then 5 else 0) + (if r.Growth.isSome then 5 else 0) +
    (if r.Founded.isSome then 5 else 0) + (if presentStr r.Location then 5 else 0)
  min (required_score + optional_score) 100

/-- `_score_company_maturity` (scoring.py lines 343–362).  `datetime.now().year`
is passed in as `currentYear`. -/
def score_company_maturity (currentYear : Int) (r : LeadRecord) : ℚ :=
  let score : ℚ := 50
  match r.Founded with
  | none => score
  | some founded_year =>
    let company_age := currentYear - founded_year
    if 5 ≤ company_age ∧ company_age ≤ 15 then score + 20
    else if 3 ≤ company_age ∧ company_age ≤ 20 then score + 10
    else if company_age > 25 then score - 10
    else score

/-- The seven named sub-scores of one record, in the insertion order of the
`scores` dict built by `_score_individual_lead` (scoring.py lines 114–126). -/
structure SubScores where
  company_size_score : ℚ
  industry_score : ℚ
  website_quality_score : ℚ
  financial_score : ℚ
  market_position_score : ℚ
  data_completeness_score : ℚ
  company_maturity_score : ℚ
deriving DecidableEq

/-- `scores.values()` in dict insertion order. -/
def SubScores.values (s : SubScores) : List ℚ :=
  [s.company_size_score, s.industry_score, s.website_quality_score, s.financial_score,
   s.market_position_score, s.data_completeness_score, s.company_maturity_score]

/-- `_score_individual_lead` (scoring.py lines 114–126). -/
def score_individual_lead (currentYear : Int) (r : LeadRecord) : SubScores where
  company_size_score := score_company_size_enhanced r
  industry_score := score_industry_enhanced r
  website_quality_score := score_website_enhanced r
  financial_score := score_financial_enhanced r
  market_position_score := score_market_position_enhanced r
  data_completeness_score := score_data_completeness r
  company_maturity_score := score_company_maturity currentYear r

/-- Population variance; `np.std(v) < c` (scoring.py lines 407–411) is
modelled as `popVariance v < c^2`, which is equivalent for `c ≥ 0` and avoids
the irrational square root. -/
def popVariance (l : List ℚ) : ℚ :=
  let n : ℚ := l.length
  let m : ℚ := l.sum / n
  (l.map (fun x => (x - m) ^ 2)).sum / n

/-- `_apply_enhanced_adjustments` (scoring.py lines 395–428); the `row`
argument of the source is unused there and omitted. -/
def apply_enhanced_adjustments (base_score : ℚ) (scores : SubScores) : ℚ :=
  let vals := scores.values
  let adjusted := base_score
  let high_count := vals.countP (fun s => decide ((85:ℚ) ≤ s))
  let adjusted := if 3 ≤ high_count then adjusted + 8
    else if 2 ≤ high_count then adjusted + 4 else adjusted
  let score_values := vals.filter (fun s => decide ((0:ℚ) < s))
  let adjusted :=
    if 4 ≤ score_values.length then
      if popVariance score_values < 144 then adjusted + 5
      else if popVariance score_values < 400 then adjusted + 2
      else adjusted
    else adjusted
  let critical_failures : ℚ :=
    (if scores.industry_score < 40 then 1 else 0) +
    (if scores.company_size_score < 40 then 1 else 0)
  let adjusted := adjusted - critical_failures * 8
  let adjusted := if scores.website_quality_score < 25 then adjusted - 12 else adjusted
  let adjusted := if scores.data_completeness_score < 40 then adjusted - 8 else adjusted
  let adjusted :=
    if 80 ≤ scores.industry_score ∧ 80 ≤ scores.company_size_score
    then adjusted + 6 else adjusted
  adjusted

/-- Python `round(x, 1)`, up to tie direction (Python rounds half to even,
this rounds half up; no claim rests on an exact midpoint). -/
def round1 (q : ℚ) : ℚ := ((round (q * 10) : Int) : ℚ) / 10

/-- `_calculate_enhanced_composite_score` (scoring.py lines 364–393); all
five core keys are always present in the `scores` dict, so the weight total
is 1. -/
def calculate_enhanced_composite_score (scores : SubScores) : ℚ :=
  let weighted_score :=
    scores.company_size_score * (25/100) + scores.industry_score * (30/100) +
    scores.financial_score * (25/100) + scores.website_quality_score * (10/100) +
    scores.market_position_score * (10/100)
  let total_weight : ℚ := 25/100 + 30/100 + 25/100 + 10/100 + 10/100
  let base_score := weighted_score / total_weight
  let completeness_factor := scores.data_completeness_score / 100
  let base_score := base_score * (85/100 + 15/100 * completeness_factor)
  let final_score := apply_enhanced_adjustments base_score scores
  round1 (max (min final_score 100) 0)

/-- `_generate_enhanced_rationale` (scoring.py lines 450–484).  Numeric field
values inside the phrases are rendered with Lean's numeral printing, which
matches Python `str` on integers (the only rendering any claim touches). -/
def generate_enhanced_rationale (scores : SubScores) (r : LeadRecord) : String :=
  let emp := match r.EmployeeCount with | some n => toString n | none => "0"
  let parts : List String :=
    (if 85 ≤ scores.company_size_score then ["Optimal size (" ++ emp ++ " employees) for PE investment"]
     else if 70 ≤ scores.company_size_score then ["Good company size (" ++ emp ++ " employees)"]
     else if scores.company_size_score < 50 then ["Size concerns (" ++ emp ++ " employees)"]
     else [])
  let ind := match r.Industry with | some s => s | none => "Unknown"
  let parts := parts ++
    (if 85 ≤ scores.industry_score then ["High-priority industry (" ++ ind ++ ")"]
     else if 70 ≤ scores.industry_score then ["Attractive industry (" ++ ind ++ ")"]
     else if scores.industry_score < 55 then ["Lower-priority industry (" ++ ind ++ ")"]
     else [])
  let parts := parts ++
    (if 80 ≤ scores.financial_score then ["Strong financial profile"]
     else if scores.financial_score < 50 then ["Limited financial data"]
     else [])
  let parts := parts ++
    (if 70 ≤ scores.website_quality_score then ["Strong digital presence"]
     else if scores.website_quality_score < 40 then ["Weak digital footprint"]
     else [])
  if parts.isEmpty then "Standard analysis applied" else String.intercalate "; " parts

/-- `_identify_risk_factors` (scoring.py lines 486–502). -/
def identify_risk_factors (scores : SubScores) : String :=
  let risks : List String :=
    (if scores.company_size_score < 40 then ["Size mismatch"] else []) ++
    (if scores.industry_score < 50 then ["Industry challenges"] else []) ++
    (if scores.financial_score < 50 then ["Financial uncertainty"] else []) ++
    (if scores.data_completeness_score < 60 then ["Limited data"] else [])
  if risks.isEmpty then "Low risk profile" else String.intercalate "; " risks

/-- `_identify_growth_indicators` (scoring.py lines 504–522). -/
def identify_growth_indicators (scores : SubScores) (r : LeadRecord) : String :=
  let indicators : List String :=
    (if 85 ≤ scores.industry_score then ["High-growth industry"] else []) ++
    (if 70 ≤ scores.market_position_score then ["Strong market position"] else []) ++
    (match r.Growth with
     | some growth => if growth > 25 then ["High growth rate (" ++ toString growth ++ "%)"] else []
     | none => [])
  if indicators.isEmpty then "Standard growth potential" else String.intercalate "; " indicators

/-- One output row of `score_leads`: the original record plus the columns the
loop of scoring.py lines 71–102 writes.  `composite_score` is created and
initialized to 0 (line 74/79) but never written afterwards, because the
`scores` dict has no `composite_score` key; `data_completeness_score` and
`company_maturity_score` are computed but never stored, because line 86 only
writes keys that already are columns. -/
structure RowOut where
  record : LeadRecord
  company_size_score : ℚ
  industry_score : ℚ
  website_quality_score : ℚ
  financial_score : ℚ
  market_position_score : ℚ
  composite_score : ℚ
  Score : ℚ
  scoring_rationale : String
  risk_factors : String
  growth_indicators : String
deriving DecidableEq

/-- One iteration of the scoring loop (scoring.py lines 81–102).  `fault`
models the `except Exception` handler: `some e` means the body of the `try`
raised with message `e` before writing any per-record column, in which case
the row keeps its initialized column values (numeric 0; the text columns are
also initialized to the number 0, rendered "0"), gets `Score = 45`, and gets
the error rationale. -/
def processRow (currentYear : Int) (r : LeadRecord) (fault : Option String) : RowOut :=
  match fault with
  | some e =>
    { record := r, company_size_score := 0, industry_score := 0, website_quality_score := 0,
      financial_score := 0, market_position_score := 0, composite_score := 0,
      Score := 45, scoring_rationale := "Scoring error: " ++ e,
      risk_factors := "0", growth_indicators := "0" }
  | none =>
    let s := score_individual_lead currentYear r
    { record := r, company_size_score := s.company_size_score, industry_score := s.industry_score,
      website_quality_score := s.website_quality_score, financial_score := s.financial_score,
      market_position_score := s.market_position_score, composite_score := 0,
      Score := calculate_enhanced_composite_score s,
      scoring_rationale := generate_enhanced_rationale s r,
      risk_factors := identify_risk_factors s,
      growth_indicators := identify_growth_indicators s r }

/-- Insert into an ascending list (ties keep the incoming element first). -/
def insertSorted (x : ℚ) : List ℚ → List ℚ
  | [] => [x]
  | y :: ys => if x ≤ y then x :: y :: ys else y :: insertSorted x ys

/-- Ascending insertion sort, modelling the sort inside `np.percentile`. -/
def sortAsc : List ℚ → List ℚ
  | [] => []
  | x :: xs => insertSorted x (sortAsc xs)

/-- `np.percentile(scores, q)` with numpy's default linear interpolation:
position `q/100 * (n-1)` between the order statistics.  On an EMPTY array
`np.percentile` raises `IndexError`; the `n = 0` branch below is a junk
value that no use in this development reaches — the uncaught error of the
empty batch is modelled at the top level by `score_leads_run`. -/
def percentileQ (l : List ℚ) (q : ℚ) : ℚ :=
  let s := sortAsc l
  let n := s.length
  if n = 0 then 0
  else
    let pos : ℚ := q * ((n : ℚ) - 1) / 100
    let i : Nat := (⌊pos⌋).toNat
    let fr : ℚ := pos - ((⌊pos⌋ : Int) : ℚ)
    let a := s.getD i 0
    let b := s.getD (i + 1) a
    a + fr * (b - a)

/-- `adjust_score` inside `_apply_relative_scoring` (scoring.py lines 436–445),
with the four percentiles it reads passed in. -/
def adjustScore (p10 p25 p75 p90 s : ℚ) : ℚ :=
  if p90 ≤ s then min (s + 5) 100
  else if p75 ≤ s then min (s + 2) 100
  else if s ≤ p10 then max (s - 5) 0
  else if s ≤ p25 then max (s - 2) 0
  else s

/-- `_apply_relative_scoring` on the `Score` column (scoring.py lines 430–448).
The source also computes a 50th percentile it never reads; it is omitted. -/
def apply_relative_scoring (scores : List ℚ) : List ℚ :=
  let p10 := percentileQ scores 10
  let p25 := percentileQ scores 25
  let p75 := percentileQ scores 75
  let p90 := percentileQ scores 90
  scores.map (adjustScore p10 p25 p75 p90)

/-- `Series.rank(pct=True) * 100` for one value: average rank of ties as a
percentage of the batch size (scoring.py line 105). -/
def rankPct (l : List ℚ) (x : ℚ) : ℚ :=
  let n : ℚ := l.length
  ((l.countP (fun y => decide (y < x)) : Nat) +
    (((l.countP (fun y => decide (y = x)) : Nat) : ℚ) + 1) / 2) / n * 100

/-- The per-record pass of `ImprovedLeadScorer.score_leads` (the loop of
scoring.py lines 81–102), before batch normalization. -/
def scoreLeadsStage1 (currentYear : Int) (rows : List (LeadRecord × Option String)) : List RowOut :=
  rows.map (fun p => processRow currentYear p.1 p.2)

/-- `ImprovedLeadScorer.score_leads` / module-level `score_leads`
(scoring.py lines 67–112, 524–539): per-record scoring with per-record fault
recovery, then `_apply_relative_scoring` over the whole `Score` column, then
the `score_percentile` column.  Each input row yields exactly one output row
(its `RowOut` paired with its `score_percentile`). -/
def score_leads (currentYear : Int) (rows : List (LeadRecord × Option String)) :
    List (RowOut × ℚ) :=
  let stage := scoreLeadsStage1 currentYear rows
  let scores := stage.map (fun o => o.Score)
  let p10 := percentileQ scores 10
  let p25 := percentileQ scores 25
  let p75 := percentileQ scores 75
  let p90 := percentileQ scores 90
  let adjusted := stage.map (fun o => { o with Score := adjustScore p10 p25 p75 p90 o.Score })
  let finalScores := adjusted.map (fun o => o.Score)
  adjusted.map (fun o => (o, rankPct finalScores o.Score))

/-- `score_columns` (scoring.py lines 72–76): the columns created and
initialized before the scoring loop, in order. -/
def score_columns : List String :=
  ["company_size_score", "industry_score", "website_quality_score",
   "financial_score", "market_position_score", "composite_score",
   "Score", "scoring_rationale", "risk_factors", "growth_indicators"]

/-- The seven keys of the `scores` dict of `_score_individual_lead`, in
insertion order. -/
def subscore_keys : List String :=
  ["company_size_score", "industry_score", "website_quality_score", "financial_score",
   "market_position_score", "data_completeness_score", "company_maturity_score"]

/-- The sub-score keys that line 86 (`if key in df_scored.columns`) actually
stores into the output table. -/
def written_subscore_keys : List String :=
  subscore_keys.filter (fun k => score_columns.contains k)

/-- Column list of the returned DataFrame: the input columns, then each
pre-created score column not already present (pandas appends new columns in
assignment order), then `score_percentile` (line 105). -/
def output_columns (input : List String) : List String :=
  (input ++ score_columns.filter (fun c => !(input.contains c))) ++
    (if input.contains "score_percentile" then [] else ["score_percentile"])

/-- A whole run of `score_leads`, including its one failure mode outside
the per-record `try/except`: on an empty batch, `_apply_relative_scoring`
(scoring.py line 434) calls `np.percentile` on the empty `Score` array,
which raises `IndexError` and aborts the whole call.  `none` models that
uncaught exception; on a nonempty batch the run returns the rows of
`score_leads`. -/
def score_leads_run (currentYear : Int) (rows : List (LeadRecord × Option String)) :
    Option (List (RowOut × ℚ)) :=
  if rows.isEmpty then none else some (score_leads currentYear rows)

/-! ### Range lemmas for the sub-scorers -/

theorem clamp_bounds (x : ℚ) : 0 ≤ max (min x 100) 0 ∧ max (min x 100) 0 ≤ 100 :=
  ⟨le_max_right _ _, max_le (min_le_right _ _) (by norm_num)⟩

theorem round1_bounds (q : ℚ) (h0 : 0 ≤ q) (h1 : q ≤ 100) :
    0 ≤ round1 q ∧ round1 q ≤ 100 := by
  unfold round1
  rw [round_eq]
  have hlo : (0 : ℤ) ≤ ⌊q * 10 + 1 / 2⌋ := Int.le_floor.mpr (by push_cast; linarith)
  have hhi : ⌊q * 10 + 1 / 2⌋ ≤ 1000 := by
    have h2 : ((⌊q * 10 + 1 / 2⌋ : ℤ) : ℚ) ≤ q * 10 + 1 / 2 := Int.floor_le _
    have h3 : ((⌊q * 10 + 1 / 2⌋ : ℤ) : ℚ) < 1001 := by linarith
    have h4 : (⌊q * 10 + 1 / 2⌋ : ℤ) < 1001 := by exact_mod_cast h3
    omega
  constructor
  · exact div_nonneg (by exact_mod_cast hlo) (by norm_num)
  · rw [div_le_iff₀ (by norm_num : (0:ℚ) < 10)]
    calc ((⌊q * 10 + 1 / 2⌋ : ℤ) : ℚ) ≤ ((1000 : ℤ) : ℚ) := by exact_mod_cast hhi
      _ = 100 * 10 := by norm_num

theorem composite_bounds (s : SubScores) :
    0 ≤ calculate_enhanced_composite_score s ∧ calculate_enhanced_composite_score s ≤ 100 := by
  unfold calculate_enhanced_composite_score
  exact round1_bounds _ (clamp_bounds _).1 (clamp_bounds _).2

theorem score_company_size_field_bounds (o : Option Int) :
    0 ≤ score_company_size_field o ∧ score_company_size_field o ≤ 100 := by
  have htab : ∀ p ∈ employee_scoring, (30:ℚ) ≤ p.2 ∧ p.2 ≤ 95 := by
    intro p hp
    simp only [employee_scoring, List.mem_cons, List.not_mem_nil, or_false] at hp
    rcases hp with h|h|h|h|h|h|h|h|h|h <;> subst h <;> norm_num
  simp only [score_company_size_field]
  split
  · norm_num
  · split
    · rename_i p hp
      have hb := htab p (List.mem_of_find?_eq_some hp)
      split
      · exact ⟨le_min (by linarith [hb.1]) (by norm_num), min_le_right _ _⟩
      · split
        · exact ⟨le_max_right _ _, max_le (by linarith [hb.2]) (by norm_num)⟩
        · exact ⟨by linarith [hb.1], by linarith [hb.2]⟩
    · split <;> norm_num

theorem score_website_field_bounds (o : Option String) :
    0 ≤ score_website_field o ∧ score_website_field o ≤ 100 := by
  simp only [score_website_field]
  split
  · norm_num
  · split
    · norm_num
    · exact clamp_bounds _

theorem score_financial_enhanced_bounds (r : LeadRecord) :
    0 ≤ score_financial_enhanced r ∧ score_financial_enhanced r ≤ 100 := by
  simp only [score_financial_enhanced]
  exact clamp_bounds _

theorem score_market_position_field_bounds (c i : Option String) :
    0 ≤ score_market_position_field c i ∧ score_market_position_field c i ≤ 100 := by
  simp only [score_market_position_field]
  exact clamp_bounds _

theorem score_data_completeness_bounds (r : LeadRecord) :
    0 ≤ score_data_completeness r ∧ score_data_completeness r ≤ 100 := by
  simp only [score_data_completeness]
  refine ⟨le_min ?_ (by norm_num), min_le_right _ _⟩
  have h20 : ∀ c : Bool, 0 ≤ (if c = true then (20:ℚ) else 0) := by
    intro c; exact ite_nonneg (by norm_num) (by norm_num)
  have h5 : ∀ c : Bool, 0 ≤ (if c = true then (5:ℚ) else 0) := by
    intro c; exact ite_nonneg (by norm_num) (by norm_num)
  have := h20 (presentStr r.Company)
  have := h20 (presentStr r.Industry)
  have := h20 (presentStr r.Website)
  have := h20 r.EmployeeCount.isSome
  have := h5 r.Revenue.isSome
  have := h5 r.Growth.isSome
  have := h5 r.Founded.isSome
  have := h5 (presentStr r.Location)
  linarith

theorem score_company_maturity_bounds (y : Int) (r : LeadRecord) :
    0 ≤ score_company_maturity y r ∧ score_company_maturity y r ≤ 100 := by
  simp only [score_company_maturity]
  split
  · norm_num
  · split_ifs <;> norm_num

theorem target_industries_bounds : ∀ p ∈ target_industries, (35:ℚ) ≤ p.2 ∧ p.2 ≤ 95 := by
  intro p hp
  fin_cases hp <;> norm_num

theorem fuzzyStep_fst_bounds (il : String) (acc : ℚ × ℕ) (p : String × ℚ)
    (h0 : 0 ≤ acc.1) (h1 : acc.1 ≤ 100) (hp : 0 ≤ p.2 ∧ p.2 ≤ 95) :
    0 ≤ (fuzzyStep il acc p).1 ∧ (fuzzyStep il acc p).1 ≤ 100 := by
  have hm9 : 0 ≤ p.2 * (9/10) ∧ p.2 * (9/10) ≤ 100 := by
    constructor
    · exact mul_nonneg hp.1 (by norm_num)
    · nlinarith [hp.2]
  have hm8 : 0 ≤ p.2 * (8/10) ∧ p.2 * (8/10) ≤ 100 := by
    constructor
    · exact mul_nonneg hp.1 (by norm_num)
    · nlinarith [hp.2]
  simp only [fuzzyStep]
  split
  · split
    · exact hm8
    · exact hm9
  · split
    · exact hm8
    · exact ⟨h0, h1⟩

theorem fuzzyFold_fst_bounds (il : String) :
    ∀ (l : List (String × ℚ)) (acc : ℚ × ℕ), (∀ p ∈ l, 0 ≤ p.2 ∧ p.2 ≤ 95) →
      0 ≤ acc.1 → acc.1 ≤ 100 →
      0 ≤ (l.foldl (fuzzyStep il) acc).1 ∧ (l.foldl (fuzzyStep il) acc).1 ≤ 100 := by
  intro l
  induction l with
  | nil => intro acc _ h0 h1; exact ⟨h0, h1⟩
  | cons p t ih =>
    intro acc hl h0 h1
    have hp := hl p (List.mem_cons_self _ _)
    have hs := fuzzyStep_fst_bounds il acc p h0 h1 ⟨by linarith [hp.1], hp.2⟩
    exact ih _ (fun q hq => hl q (List.mem_cons_of_mem _ hq)) hs.1 hs.2

theorem bonus_bounds (b : Prop) [Decidable b] (x d : ℚ) (hd : 0 ≤ d) (h0 : 0 ≤ x) (h1 : x ≤ 100) :
    0 ≤ (if b then min (x + d) 100 else x) ∧ (if b then min (x + d) 100 else x) ≤ 100 := by
  split
  · exact ⟨le_min (by linarith) (by norm_num), min_le_right _ _⟩
  · exact ⟨h0, h1⟩

theorem score_industry_field_bounds (o : Option String) :
    0 ≤ score_industry_field o ∧ score_industry_field o ≤ 100 := by
  simp only [score_industry_field]
  split
  · norm_num
  · rename_i industry
    split
    · norm_num
    · cases hfind : target_industries.find? (fun p => p.1 == titleStr (trimStr industry)) with
      | none =>
        simp only [hfind]
        have hM := fuzzyFold_fst_bounds (toLowerStr (titleStr (trimStr industry)))
          target_industries (45, 0)
          (fun p hp => ⟨by linarith [(target_industries_bounds p hp).1], (target_industries_bounds p hp).2⟩)
          (by norm_num) (by norm_num)
        exact bonus_bounds _ _ _ (by norm_num) (bonus_bounds _ _ _ (by norm_num) hM.1 hM.2).1
          (bonus_bounds _ _ _ (by norm_num) hM.1 hM.2).2
      | some p =>
        simp only [hfind]
        have hb := target_industries_bounds p (List.mem_of_find?_eq_some hfind)
        exact bonus_bounds _ _ _ (by norm_num)
          (bonus_bounds _ _ _ (by norm_num) (by linarith [hb.1]) (by linarith [hb.2])).1
          (bonus_bounds _ _ _ (by norm_num) (by linarith [hb.1]) (by linarith [hb.2])).2

theorem adjustScore_bounds (p10 p25 p75 p90 s : ℚ) (h0 : 0 ≤ s) (h1 : s ≤ 100) :
    0 ≤ adjustScore p10 p25 p75 p90 s ∧ adjustScore p10 p25 p75 p90 s ≤ 100 := by
  simp only [adjustScore]
  split
  · exact ⟨le_min (by linarith) (by norm_num), min_le_right _ _⟩
  · split
    · exact ⟨le_min (by linarith) (by norm_num), min_le_right _ _⟩
    · split
      · exact ⟨le_max_right _ _, max_le (by linarith) (by norm_num)⟩
      · split
        · exact ⟨le_max_right _ _, max_le (by linarith) (by norm_num)⟩
        · exact ⟨h0, h1⟩

theorem processRow_Score_bounds (y : Int) (r : LeadRecord) (fault : Option String) :
    0 ≤ (processRow y r fault).Score ∧ (processRow y r fault).Score ≤ 100 := by
  cases fault with
  | some e => simp only [processRow]; norm_num
  | none => simp only [processRow]; exact composite_bounds _

theorem score_leads_Score_bounds (y : Int) (rows : List (LeadRecord × Option String)) (q : ℚ)
    (hq : q ∈ (score_leads y rows).map (fun p => p.1.Score)) : 0 ≤ q ∧ q ≤ 100 := by
  simp only [score_leads] at hq
  rw [List.map_map, List.map_map] at hq
  obtain ⟨o, ho, rfl⟩ := List.mem_map.mp hq
  obtain ⟨a, b, _, rfl⟩ := by simpa [scoreLeadsStage1, List.mem_map] using ho
  exact adjustScore_bounds _ _ _ _ _ (processRow_Score_bounds y a b).1 (processRow_Score_bounds y a b).2

theorem percentileQ_singleton (x q : ℚ) : percentileQ [x] q = x := by
  simp only [percentileQ, sortAsc, insertSorted]
  norm_num

theorem map_Score_singleton_fault (y : Int) (r : LeadRecord) (e : String) :
    (score_leads y [(r, some e)]).map (fun p => p.1.Score) = [50] := by
  simp only [score_leads, scoreLeadsStage1, processRow, List.map, percentileQ_singleton,
    adjustScore]
  norm_num

/-- Claim C1: for every input record each of the seven sub-scores lies in
[0,100], the per-record composite `Score` lies in [0,100], and every `Score`
produced by a whole batch run (after batch normalization) lies in [0,100]. -/
theorem claim_C1_scores_within_bounds (year : Int) (r : LeadRecord) :
    (0 ≤ score_company_size_enhanced r ∧ score_company_size_enhanced r ≤ 100) ∧
    (0 ≤ score_industry_enhanced r ∧ score_industry_enhanced r ≤ 100) ∧
    (0 ≤ score_website_enhanced r ∧ score_website_enhanced r ≤ 100) ∧
    (0 ≤ score_financial_enhanced r ∧ score_financial_enhanced r ≤ 100) ∧
    (0 ≤ score_market_position_enhanced r ∧ score_market_position_enhanced r ≤ 100) ∧
    (0 ≤ score_data_completeness r ∧ score_data_completeness r ≤ 100) ∧
    (0 ≤ score_company_maturity year r ∧ score_company_maturity year r ≤ 100) ∧
    (0 ≤ calculate_enhanced_composite_score (score_individual_lead year r) ∧
      calculate_enhanced_composite_score (score_individual_lead year r) ≤ 100) ∧
    (∀ (rows : List (LeadRecord × Option String)) (q : ℚ),
      q ∈ (score_leads year rows).map (fun p => p.1.Score) → 0 ≤ q ∧ q ≤ 100) :=
  ⟨score_company_size_field_bounds r.EmployeeCount,
   score_industry_field_bounds r.Industry,
   score_website_field_bounds r.Website,
   score_financial_enhanced_bounds r,
   score_market_position_field_bounds r.Company r.Industry,
   score_data_completeness_bounds r,
   score_company_maturity_bounds year r,
   composite_bounds _,
   fun rows q hq => score_leads_Score_bounds year rows q hq⟩

/-- Witness for C1 at a concrete record and a concrete one-record batch
(whose single normalized Score evaluates to 50). -/
theorem claim_C1_scores_within_bounds_witness :
    (50:ℚ) ∈ (score_leads 2026 [(onlyCompany "Acme", some "boom")]).map (fun p => p.1.Score) ∧
    (0 ≤ (50:ℚ) ∧ (50:ℚ) ≤ 100) := by
  have hmem : (50:ℚ) ∈ (score_leads 2026 [(onlyCompany "Acme", some "boom")]).map
      (fun p => p.1.Score) := by
    rw [map_Score_singleton_fault]
    exact List.mem_singleton_self 50
  exact ⟨hmem, (claim_C1_scores_within_bounds 2026 (onlyCompany "Acme")).2.2.2.2.2.2.2.2
    [(onlyCompany "Acme", some "boom")] 50 hmem⟩

/-- Claim C6: a record with `EmployeeCount = 150` falls in the (100,300)
range (base 95); the fractional position 50/200 = 0.25 is below 0.3, so 3 is
subtracted, giving 92. -/
theorem claim_C6_company_size_150 (r : LeadRecord) (h : r.EmployeeCount = some 150) :
    score_company_size_enhanced r = 92 := by
  simp only [score_company_size_enhanced, h]
  norm_num [score_company_size_field, employee_scoring]

/-- Witness for C6 at a concrete record. -/
theorem claim_C6_company_size_150_witness :
    ({ EmployeeCount := some 150 } : LeadRecord).EmployeeCount = some 150 ∧
    score_company_size_enhanced { EmployeeCount := some 150 } = 92 :=
  ⟨rfl, claim_C6_company_size_150 _ rfl⟩

theorem sortAsc_example : sortAsc [(92:ℚ),78,65,50,30] = [30,50,65,78,92] := by
  norm_num [sortAsc, insertSorted]

theorem relative_scoring_example :
    apply_relative_scoring [(92:ℚ), 78, 65, 50, 30] = [97, 80, 65, 48, 25] := by
  have h90 : percentileQ [(92:ℚ),78,65,50,30] 90 = 432/5 := by
    have hfl : (⌊(90:ℚ) * (((5:ℕ) :ℚ) - 1) / 100⌋) = (3:ℤ) := by norm_num
    have e1 : ([30,50,65,78,92] : List ℚ)[Int.toNat 3] = 78 := rfl
    have e2 : ([50,65,78,92] : List ℚ)[Int.toNat 3] = 92 := rfl
    simp only [percentileQ, sortAsc_example]
    norm_num [hfl, e1, e2]
  have h75 : percentileQ [(92:ℚ),78,65,50,30] 75 = 78 := by
    have hfl : (⌊(75:ℚ) * (((5:ℕ) :ℚ) - 1) / 100⌋) = (3:ℤ) := by norm_num
    have e1 : ([30,50,65,78,92] : List ℚ)[Int.toNat 3] = 78 := rfl
    have e2 : ([50,65,78,92] : List ℚ)[Int.toNat 3] = 92 := rfl
    simp only [percentileQ, sortAsc_example]
    norm_num [hfl, e1, e2]
  have h25 : percentileQ [(92:ℚ),78,65,50,30] 25 = 50 := by
    have hfl : (⌊(25:ℚ) * (((5:ℕ) :ℚ) - 1) / 100⌋) = (1:ℤ) := by norm_num
    have e1 : ([30,50,65,78,92] : List ℚ)[Int.toNat 1] = 50 := rfl
    have e2 : ([50,65,78,92] : List ℚ)[Int.toNat 1] = 65 := rfl
    simp only [percentileQ, sortAsc_example]
    norm_num [hfl, e1, e2]
  have h10 : percentileQ [(92:ℚ),78,65,50,30] 10 = 38 := by
    have hfl : (⌊(10:ℚ) * (((5:ℕ) :ℚ) - 1) / 100⌋) = (0:ℤ) := by norm_num
    have e1 : ([30,50,65,78,92] : List ℚ)[Int.toNat 0] = 30 := rfl
    have e2 : ([50,65,78,92] : List ℚ)[Int.toNat 0] = 50 := rfl
    simp only [percentileQ, sortAsc_example]
    norm_num [hfl, e1, e2]
  simp only [apply_relative_scoring, h90, h75, h25, h10, List.map, adjustScore]
  norm_num

/-- Claim C7: on the batch of composite scores [92,78,65,50,30] the batch
normalizer maps the top record to 92+5 = 97 (it meets the interpolated 90th
percentile 86.4) and the bottom record to 30−5 = 25 (it lies at or below the
10th percentile 38). -/
theorem claim_C7_relative_batch_example :
    (apply_relative_scoring [(92:ℚ), 78, 65, 50, 30]).getD 0 0 = 97 ∧
    (apply_relative_scoring [(92:ℚ), 78, 65, 50, 30]).getD 4 0 = 25 := by
  rw [relative_scoring_example]
  exact ⟨rfl, rfl⟩

/-- Counterexample to C4 as stated: `Industry = "SaaS"` does NOT score 95.
Title-casing normalizes "SaaS" to "Saas", which is not a key of the lookup
table, so the exact-match branch never fires; the fuzzy substring strategy
yields 95 · 0.9 = 85.5. -/
theorem claim_C4_counterexample :
    titleStr (trimStr "SaaS") = "Saas" ∧
    target_industries.find? (fun p => p.1 == titleStr (trimStr "SaaS")) = none ∧
    score_industry_field (some "SaaS") = 171/2 ∧ ((171:ℚ)/2 ≠ 95) := by
  refine ⟨by decide, by decide, ?_, by norm_num⟩
  simp +decide [score_industry_field, target_industries, fuzzyStep]
  norm_num

/-- Claim C4 (amended): for `Industry = "SaaS"` the lookup-table exact match
fails (the normalized form is "Saas"), the substring fuzzy strategy matches
the "SaaS" entry at 90% of its score, and no keyword bonus applies, so the
industry sub-score is 95 · 0.9 = 85.5. -/
theorem claim_C4_industry_saas (r : LeadRecord) (h : r.Industry = some "SaaS") :
    score_industry_enhanced r = 171/2 := by
  simp only [score_industry_enhanced, h]
  simp +decide [score_industry_field, target_industries, fuzzyStep]
  norm_num

/-- Witness for the amended C4 at a concrete record. -/
theorem claim_C4_industry_saas_witness :
    ({ Industry := some "SaaS" } : LeadRecord).Industry = some "SaaS" ∧
    score_industry_enhanced { Industry := some "SaaS" } = 171/2 :=
  ⟨rfl, claim_C4_industry_saas _ rfl⟩

/-- Counterexample to C5 as stated: `Website = "techcorp.com"` does NOT score
80 — the `.com` (+20), length (+15) and tech-keyword (+5) bonuses are joined
by the +5 bonus for a purely alphabetic label of length ≥ 5, giving 85. -/
theorem claim_C5_counterexample :
    score_website_field (some "techcorp.com") = 85 ∧ ((85:ℚ) ≠ 80) := by
  constructor
  · simp +decide [score_website_field, tech_keywords]
    norm_num
  · norm_num

/-- Claim C5 (amended): for `Website = "techcorp.com"` the website sub-scorer
returns 85: base 40, +20 for the .com extension, +15 for the 8-character
label in the 4–12 range, +5 for the tech keyword "tech", and +5 for a purely
alphabetic label of length ≥ 5. -/
theorem claim_C5_website_techcorp (r : LeadRecord) (h : r.Website = some "techcorp.com") :
    score_website_enhanced r = 85 := by
  simp only [score_website_enhanced, h]
  simp +decide [score_website_field, tech_keywords]
  norm_num

/-- Witness for the amended C5 at a concrete record. -/
theorem claim_C5_website_techcorp_witness :
    ({ Website := some "techcorp.com" } : LeadRecord).Website = some "techcorp.com" ∧
    score_website_enhanced { Website := some "techcorp.com" } = 85 :=
  ⟨rfl, claim_C5_website_techcorp _ rfl⟩

/-- Claim C10: there is an industry input with no exact table match — here
"Government Relations" — for which the substring fuzzy strategy matches the
low-tier "Government" entry and returns 35 · 0.9 = 31.5, strictly below the
45 no-match default: fuzzy matching can lower the industry sub-score below
the default. -/
theorem claim_C10_fuzzy_below_default :
    target_industries.find? (fun p => p.1 == titleStr (trimStr "Government Relations")) = none ∧
    score_industry_field (some "Government Relations") = 63/2 ∧
    (63:ℚ)/2 = 35 * (9/10) ∧ (63:ℚ)/2 < 45 := by
  refine ⟨by decide, ?_, by norm_num, by norm_num⟩
  simp +decide [score_industry_field, target_industries, fuzzyStep]
  norm_num

/-- Counterexample to C8 as stated: the record with only `Company = "Acme"`
has market_position_score 50, not 45, although no leadership or innovation
term occurs in the name — the extra +5 comes from the short purely
alphanumeric company name (scoring.py line 328). -/
theorem claim_C8_counterexample :
    leadership_terms.countP (fun t => strContains (toLowerStr "Acme") t) = 0 ∧
    innovation_terms.countP (fun t => strContains (toLowerStr "Acme") t) = 0 ∧
    score_market_position_enhanced (onlyCompany "Acme") = 50 ∧ ((50:ℚ) ≠ 45) := by
  refine ⟨by decide, by decide, ?_, by norm_num⟩
  simp +decide [score_market_position_enhanced, score_market_position_field, onlyCompany,
    leadership_terms, innovation_terms]
  norm_num

/-- Claim C8 (amended): a record with only `Company` present and non-empty
scores company_size 25, industry 40, website 20, financial 45, and
data_completeness at most 20; its market_position_score is 45 provided the
company name earns no name-based bonus at all (no leadership term, no
innovation term, and not the +5 for a ≤3-word purely alphanumeric name). -/
theorem claim_C8_only_company_scores (c : String) (hc : c ≠ "") :
    score_company_size_enhanced (onlyCompany c) = 25 ∧
    score_industry_enhanced (onlyCompany c) = 40 ∧
    score_website_enhanced (onlyCompany c) = 20 ∧
    score_financial_enhanced (onlyCompany c) = 45 ∧
    score_data_completeness (onlyCompany c) ≤ 20 ∧
    (leadership_terms.countP (fun t => strContains (toLowerStr c) t) = 0 →
     innovation_terms.countP (fun t => strContains (toLowerStr c) t) = 0 →
     ¬((wordsOf (toLowerStr c)).length ≤ 3 ∧
        isAlnumNonempty (removeSpaces (toLowerStr c)) = true) →
     score_market_position_enhanced (onlyCompany c) = 45) := by
  refine ⟨rfl, rfl, rfl, rfl, ?_, ?_⟩
  · simp [score_data_completeness, onlyCompany, presentStr, hc]
  · intro h1 h2 h3
    simp only [score_market_position_enhanced, onlyCompany]
    simp +decide [score_market_position_field, h1, h2, h3]

/-- Witness for the amended C8 at the concrete name "a b c d" (non-empty,
four words, no term matches, no structural bonus). -/
theorem claim_C8_only_company_scores_witness :
    score_company_size_enhanced (onlyCompany "a b c d") = 25 ∧
    score_market_position_enhanced (onlyCompany "a b c d") = 45 := by
  have h := claim_C8_only_company_scores "a b c d" (by decide)
  exact ⟨h.1, h.2.2.2.2.2 (by decide) (by decide) (by decide)⟩

theorem insertSorted_cons_of_le (x y : ℚ) (ys : List ℚ) (h : x ≤ y) :
    insertSorted x (y :: ys) = x :: y :: ys := by
  simp [insertSorted, h]

theorem sortAsc_const (c : ℚ) : ∀ (l : List ℚ), (∀ x ∈ l, x = c) → sortAsc l = l := by
  intro l
  induction l with
  | nil => intro _; rfl
  | cons a t ih =>
    intro h
    have ha : a = c := h a (List.mem_cons_self _ _)
    have ht : ∀ x ∈ t, x = c := fun x hx => h x (List.mem_cons_of_mem _ hx)
    simp only [sortAsc, ih ht]
    cases t with
    | nil => rfl
    | cons b bs =>
      have hb : b = c := ht b (List.mem_cons_self _ _)
      rw [insertSorted_cons_of_le _ _ _ (le_of_eq (ha.trans hb.symm))]

theorem getD_of_all_eq (l : List ℚ) (c d : ℚ) (h : ∀ x ∈ l, x = c) (i : ℕ)
    (hi : i < l.length) : l.getD i d = c := by
  rw [List.getD_eq_getElem l d hi]
  exact h _ (List.getElem_mem hi)

theorem percentileQ_const (l : List ℚ) (c q : ℚ) (hne : l ≠ []) (h : ∀ x ∈ l, x = c)
    (hq0 : 0 ≤ q) (hq1 : q ≤ 100) : percentileQ l q = c := by
  have hsort : sortAsc l = l := sortAsc_const c l h
  have hn : l.length ≠ 0 := by simpa [List.length_eq_zero] using hne
  have hn1 : 1 ≤ l.length := Nat.one_le_iff_ne_zero.mpr hn
  have hcast : (1:ℚ) ≤ (l.length : ℚ) := by exact_mod_cast hn1
  simp only [percentileQ, hsort]
  rw [if_neg hn]
  have hpos0 : (0:ℚ) ≤ q * ((l.length : ℚ) - 1) / 100 :=
    div_nonneg (mul_nonneg hq0 (by linarith)) (by norm_num)
  have hposle : q * ((l.length : ℚ) - 1) / 100 ≤ (l.length : ℚ) - 1 := by
    rw [div_le_iff₀ (by norm_num : (0:ℚ) < 100)]
    nlinarith
  have hfl0 : (0:ℤ) ≤ ⌊q * ((l.length : ℚ) - 1) / 100⌋ := Int.le_floor.mpr (by exact_mod_cast hpos0)
  have hfl1 : ⌊q * ((l.length : ℚ) - 1) / 100⌋ ≤ (l.length : ℤ) - 1 := by
    have h3 : ⌊((l.length : ℚ) - 1)⌋ = (l.length : ℤ) - 1 := by
      rw [show ((l.length : ℚ) - 1) = (((l.length : ℤ) - 1 : ℤ) : ℚ) by push_cast; ring,
        Int.floor_intCast]
    exact (Int.floor_mono hposle).trans_eq h3
  have hidx : (⌊q * ((l.length : ℚ) - 1) / 100⌋).toNat < l.length := by omega
  rw [getD_of_all_eq l c 0 h _ hidx]
  by_cases hb : (⌊q * ((l.length : ℚ) - 1) / 100⌋).toNat + 1 < l.length
  · rw [getD_of_all_eq l c c h _ hb]; ring
  · rw [List.getD_eq_default]
    · ring
    · omega

/-- Claim C9: in a batch whose pre-normalization composite scores are all
equal, every record meets the ≥ 90th-percentile condition, so every record
gets +5 (capped at 100); no record stays in the unchanged middle band. -/
theorem claim_C9_uniform_batch (l : List ℚ) (c : ℚ) (hne : l ≠ []) (h : ∀ x ∈ l, x = c) :
    apply_relative_scoring l = l.map (fun _ => min (c + 5) 100) := by
  have h90 := percentileQ_const l c 90 hne h (by norm_num) (by norm_num)
  simp only [apply_relative_scoring]
  apply List.map_congr_left
  intro x hx
  rw [h x hx]
  simp only [adjustScore]
  rw [if_pos (le_of_eq h90)]

/-- Witness for C9 at the concrete uniform batch [50,50,50]. -/
theorem claim_C9_uniform_batch_witness :
    apply_relative_scoring [(50:ℚ), 50, 50] = [55, 55, 55] := by
  have h := claim_C9_uniform_batch [(50:ℚ), 50, 50] 50 (by simp)
    (by intro x hx; simpa using hx)
  rw [h]
  norm_num

theorem charsPrefixOf_self_append (l rest : List Char) :
    charsInfixOf.charsPrefixOf l (l ++ rest) = true := by
  induction l with
  | nil => rfl
  | cons a as ih => simp [charsInfixOf.charsPrefixOf, ih]

theorem strStartsWith_scoring_error (e : String) :
    strStartsWith ("Scoring error: " ++ e) "Scoring error:" = true := by
  have h1 : ("Scoring error: " ++ e).data = "Scoring error:".data ++ (' ' :: e.data) := rfl
  simp only [strStartsWith, h1]
  exact charsPrefixOf_self_append _ _

/-- Counterexample to C2 as stated: in a one-record batch whose record
faults, the recovery value 45 is itself the batch maximum, so the relative
scoring pass lifts it to 50 — the record does not appear in the output with
Score = 45. -/
theorem claim_C2_counterexample :
    (score_leads 2026 [(onlyCompany "Acme", some "boom")]).map (fun p => p.1.Score) = [50] ∧
    ((50:ℚ) ≠ 45) :=
  ⟨map_Score_singleton_fault 2026 (onlyCompany "Acme") "boom", by norm_num⟩

/-- Claim C2 (amended): scoring returns one output row per input row exactly
on nonempty batches — on the empty batch `_apply_relative_scoring` calls
`np.percentile` on an empty array, which raises outside the per-record
handler and aborts the run.  Within a nonempty batch, a record whose
per-record scoring raises gets Score = 45 at the record boundary (before
batch normalization, which may still nudge the final Score by the percentile
adjustment) and appears in the output with a scoring_rationale beginning
"Scoring error:"; the other records of the batch are still processed. -/
theorem claim_C2_fault_recovery (year : Int) (rows : List (LeadRecord × Option String)) :
    (score_leads_run year rows = none ↔ rows = []) ∧
    (rows ≠ [] → ∃ outs : List (RowOut × ℚ),
      score_leads_run year rows = some outs ∧
      outs.length = rows.length ∧
      (∀ (i : ℕ) (r : LeadRecord) (e : String), rows[i]? = some (r, some e) →
        ((scoreLeadsStage1 year rows).map (fun o => o.Score))[i]? = some 45 ∧
        ∃ out : RowOut × ℚ, outs[i]? = some out ∧
          out.1.scoring_rationale = "Scoring error: " ++ e ∧
          strStartsWith out.1.scoring_rationale "Scoring error:" = true)) := by
  constructor
  · cases rows with
    | nil => simp [score_leads_run]
    | cons a t => simp [score_leads_run]
  · intro hne
    refine ⟨score_leads year rows, by simp [score_leads_run, hne], ?_, ?_⟩
    · simp [score_leads, scoreLeadsStage1]
    · intro i r e hi
      have hstage : (scoreLeadsStage1 year rows)[i]? = some (processRow year r (some e)) := by
        simp [scoreLeadsStage1, List.getElem?_map, hi]
      constructor
      · simp [List.getElem?_map, hstage, processRow]
      · have hmap : (score_leads year rows)[i]?.map (fun out => out.1.scoring_rationale)
            = some ("Scoring error: " ++ e) := by
          simp only [score_leads, List.getElem?_map, hstage, Option.map_some]
          simp [processRow]
        obtain ⟨out, hout, hrat⟩ := Option.map_eq_some.mp hmap
        exact ⟨out, hout, hrat, hrat ▸ strStartsWith_scoring_error e⟩

/-- Witness for the amended C2: the empty batch aborts, and a concrete
one-record faulting batch yields one row with pre-normalization Score 45. -/
theorem claim_C2_fault_recovery_witness :
    score_leads_run 2026 [] = none ∧
    ∃ outs : List (RowOut × ℚ),
      score_leads_run 2026 [(onlyCompany "Acme", some "boom")] = some outs ∧
      outs.length = 1 ∧
      ((scoreLeadsStage1 2026 [(onlyCompany "Acme", some "boom")]).map
        (fun o => o.Score))[0]? = some 45 := by
  have h0 := (claim_C2_fault_recovery 2026 ([] : List (LeadRecord × Option String))).1.mpr rfl
  obtain ⟨outs, h1, h2, h3⟩ :=
    (claim_C2_fault_recovery 2026 [(onlyCompany "Acme", some "boom")]).2 (by simp)
  exact ⟨h0, outs, h1, h2, (h3 0 (onlyCompany "Acme") "boom" rfl).1⟩

/-- Counterexample to C3 as stated: the appended columns are NOT exactly the
ScoredLead columns of the spec — `data_completeness_score` and
`company_maturity_score` are computed but never appended (line 86 of
scoring.py only writes keys that already are columns), while an extra
`composite_score` column (initialized to 0, never updated) is appended. -/
theorem claim_C3_counterexample :
    "data_completeness_score" ∉ output_columns ["Company", "Industry", "Website", "EmployeeCount"] ∧
    "company_maturity_score" ∉ output_columns ["Company", "Industry", "Website", "EmployeeCount"] ∧
    "composite_score" ∈ output_columns ["Company", "Industry", "Website", "EmployeeCount"] :=
  ⟨by decide, by decide, by decide⟩

/-- Claim C3 (amended): the output is the input table with exactly these
columns appended, in order: the five stored sub-score columns, the inert
`composite_score` column (always 0), `Score`, `scoring_rationale`,
`risk_factors`, `growth_indicators`, and `score_percentile`; of the seven
computed sub-scores only the first five are stored. -/
theorem claim_C3_output_columns (input : List String)
    (hdisj : ∀ c ∈ score_columns, c ∉ input) (hp : "score_percentile" ∉ input) :
    output_columns input = input ++
      ["company_size_score", "industry_score", "website_quality_score",
       "financial_score", "market_position_score", "composite_score",
       "Score", "scoring_rationale", "risk_factors", "growth_indicators",
       "score_percentile"] ∧
    written_subscore_keys =
      ["company_size_score", "industry_score", "website_quality_score",
       "financial_score", "market_position_score"] := by
  constructor
  · simp only [output_columns]
    have h1 : score_columns.filter (fun c => !(input.contains c)) = score_columns := by
      apply List.filter_eq_self.mpr
      intro c hc
      simp [hdisj c hc]
    have h2 : input.contains "score_percentile" = false := by
      simp [hp]
    rw [h1, h2]
    simp [score_columns, List.append_assoc]
  · decide

/-- Witness for the amended C3 at a concrete input column list. -/
theorem claim_C3_output_columns_witness :
    output_columns ["Company", "Industry"] = ["Company", "Industry"] ++
      ["company_size_score", "industry_score", "website_quality_score",
       "financial_score", "market_position_score", "composite_score",
       "Score", "scoring_rationale", "risk_factors", "growth_indicators",
       "score_percentile"] :=
  (claim_C3_output_columns ["Company", "Industry"] (by decide) (by decide)).1
